import Mathlib

/-!
Verification of the AETE configuration loader (src/config.py) and the Firestore
persistence gateway (src/firebase_client.py).

The embedding is shallow: Python dictionaries become association lists
(`List (String × Value)`), the remote document store becomes an explicit `Store`
value threaded through each operation, and points where the remote client may
raise become an explicit `remoteFailure : Bool` argument; operations return
their Python result together with the payload dictionary as it stands after the
call (the source mutates it in place) and the updated store.
-/

namespace AETE

/-- Field values held in documents.  Payload fields in the source are arbitrary
JSON-like values; the claims only need strings, integers, booleans and the
Firestore server-timestamp sentinel. -/
inductive Value where
  | str (s : String)
  | int (n : Int)
  | bool (b : Bool)
  | serverTimestamp
  deriving DecidableEq

/-- A document: a Python dict with string keys, as an association list. -/
abbrev Doc := List (String × Value)

/-- Lookup in an association list (Python `d.get(key)` / Firestore doc lookup):
the first binding of the key, if any. -/
def alGet {α : Type} : List (String × α) → String → Option α
  | [], _ => none
  | (k, v) :: rest, key => if k = key then some v else alGet rest key

/-- Update/insert in an association list (Python `d[key] = v`): replaces the
first binding of the key in place, or appends a new binding. -/
def alSet {α : Type} : List (String × α) → String → α → List (String × α)
  | [], key, v => [(key, v)]
  | (k, w) :: rest, key, v =>
    if k = key then (key, v) :: rest else (k, w) :: alSet rest key v

/-- The keys of an association list. -/
def keys {α : Type} (l : List (String × α)) : List String := l.map Prod.fst

/-- Key sets of Python dicts contain no duplicates; payload documents coming
from callers satisfy this. -/
abbrev NodupKeys {α : Type} (l : List (String × α)) : Prop := (keys l).Nodup

/-- Firestore `set(data, merge=True)` semantics on one document: every field of
`new` overwrites or is added to `old`; other fields of `old` are preserved. -/
def mergeDoc : Doc → Doc → Doc
  | old, [] => old
  | old, (k, v) :: rest => mergeDoc (alSet old k v) rest

/-- Python truthiness of a value, as used by `if strategy_id:`. -/
def pyTruthy : Value → Bool
  | .str s => !(s == "")
  | .int n => !(n == 0)
  | .bool b => b
  | .serverTimestamp => true

/-- Python `str.lower()` restricted to the character-wise case fold the claims
need (ASCII letters of the relevant literals). -/
def pyLower (s : String) : String := ⟨s.data.map Char.toLower⟩

/-! ## Configuration loader (src/config.py) -/

/-- `ExchangeConfig` dataclass: exchange connection configuration. -/
structure ExchangeConfig where
  name : String
  api_key : String := ""
  api_secret : String := ""
  sandbox : Bool := true
  deriving DecidableEq

/-- `ExchangeConfig.validate` (src/config.py lines 23-30): an empty name fails;
live mode with missing keys only logs a warning and still returns `true`. -/
def ExchangeConfig.validate (c : ExchangeConfig) : Bool :=
  if c.name == "" then false
  else
    -- `if not self.sandbox and (not api_key or not api_secret)` only logs a
    -- warning; the function returns True regardless.
    true

/-- The fields of `AETEConfig` the claims depend on; GA/RL hyperparameters are
never consumed by the shown logic. -/
structure AETEConfig where
  log_level : String
  firebase_credentials_path : String
  exchange : ExchangeConfig
  deriving DecidableEq

/-- The sandbox flag parse in `AETEConfig.__init__` (src/config.py line 65):
`os.getenv("EXCHANGE_SANDBOX", "true").lower() == "true"`, with `v` the value
of the environment variable when set. -/
def parse_exchange_sandbox (v : Option String) : Bool :=
  pyLower (v.getD "true") == "true"

/-- `AETEConfig.validate` (src/config.py lines 91-104).  The existence check
`os.path.exists(...)` consults the file system, an external input, passed here
as `credentialsFileExists`.  Returns the overall result together with the list
of check names logged as failed. -/
def AETEConfig.validate (cfg : AETEConfig) (credentialsFileExists : Bool) :
    Bool × List String :=
  let validations : List (String × Bool) :=
    [("Exchange config", cfg.exchange.validate),
     ("Firebase credentials", credentialsFileExists)]
  (validations.all (fun p => p.2),
   (validations.filter (fun p => !p.2)).map (fun p => p.1))

/-! ## Persistence gateway (src/firebase_client.py) -/

/-- Connection state of a `FirebaseClient` instance: `_initialized` and whether
`db` is set (not `None`). -/
structure FirebaseClient where
  initialized : Bool
  dbSome : Bool
  deriving DecidableEq

/-- `FirebaseClient.is_connected` (src/firebase_client.py lines 41-43). -/
def FirebaseClient.is_connected (c : FirebaseClient) : Bool :=
  c.initialized && c.dbSome

/-- The remote document store plus a record of performance-hook invocations:
the `strategies` collection (keyed by strategy id), the append-only `trades`
collection, and the list of `(strategy_id, trade_data)` arguments the
performance-update hook was invoked with. -/
structure Store where
  strategies : List (String × Doc) := []
  trades : List Doc := []
  perfUpdates : List (Value × Doc) := []
  deriving DecidableEq

/-- `FirebaseClient._initialize_firebase` (src/firebase_client.py lines 24-39).
External outcomes of the single attempt: whether `firebase_admin._apps` is
already non-empty, the outcome of certificate loading plus app initialization,
and the outcome of `firestore.client()`.  The except clause logs, sets
`_initialized = False` and re-raises, so every failure propagates as `error`. -/
def initialize_firebase (appsNonEmpty : Bool) (certInit : Except String Unit)
    (clientInit : Except String Unit) : Except String FirebaseClient :=
  match (if appsNonEmpty then Except.ok () else certInit) with
  | .error e => .error e
  | .ok _ =>
    match clientInit with
    | .error e => .error e
    | .ok _ => .ok { initialized := true, dbSome := true }

/-- `FirebaseClient.save_strategy` (src/firebase_client.py lines 47-64).
`remoteFailure` is whether the remote write `strategy_ref.set` raises; the
payload dict is mutated before that point.  Returns the Python result, the
payload as the caller sees it after the call, and the updated store. -/
def save_strategy (c : FirebaseClient) (st : Store) (remoteFailure : Bool)
    (strategy_id : String) (strategy_data : Doc) : Bool × Doc × Store :=
  if !c.is_connected then (false, strategy_data, st)
  else
    let d1 := alSet strategy_data "updated_at" Value.serverTimestamp
    let d2 := alSet d1 "version" ((alGet d1 "version").getD (Value.int 1))
    if remoteFailure then (false, d2, st)
    else
      let old := (alGet st.strategies strategy_id).getD []
      (true, d2,
       { st with strategies := alSet st.strategies strategy_id (mergeDoc old d2) })

/-- `FirebaseClient.get_strategy` (src/firebase_client.py lines 66-83):
`None` when disconnected, `None` when the remote read raises, the document
when it exists, `None` (with a warning log) when it does not. -/
def get_strategy (c : FirebaseClient) (st : Store) (remoteFailure : Bool)
    (strategy_id : String) : Option Doc :=
  if !c.is_connected then none
  else if remoteFailure then none
  else alGet st.strategies strategy_id

/-- Modelled from the spec: the body of `_update_strategy_performance` is not in
the provided source (src/firebase_client.py is cut off at line 105); the spec
treats it as an external collaborator hook given `(strategy_id, trade_data)`,
so the model records each invocation in `perfUpdates`. -/
def update_strategy_performance (st : Store) (strategy_id : Value)
    (trade_data : Doc) : Store :=
  { st with perfUpdates := st.perfUpdates ++ [(strategy_id, trade_data)] }

/-- `FirebaseClient.log_trade` (src/firebase_client.py lines 87-105): the
disconnected early return, the metadata stamping, the append to `trades`, and
the conditional performance-hook call are in the source; the trailing success
return and the exception handler are cut off and are modelled from the spec:
the operation returns true on success and false (never an exception) on any
remote failure.  `remoteFailure` is whether the remote append raises. -/
def log_trade (c : FirebaseClient) (st : Store) (remoteFailure : Bool)
    (trade_data : Doc) : Bool × Doc × Store :=
  if !c.is_connected then (false, trade_data, st)
  else
    let d1 := alSet trade_data "logged_at" Value.serverTimestamp
    let d2 := alSet d1 "ecosystem_version" (Value.str "aete_v1")
    if remoteFailure then (false, d2, st)
    else
      let st1 := { st with trades := st.trades ++ [d2] }
      let st2 :=
        match alGet d2 "strategy_id" with
        | some v => if pyTruthy v then update_strategy_performance st1 v d2 else st1
        | none => st1
      (true, d2, st2)

/-! ## Association-list lemmas -/

theorem alGet_alSet_self {α : Type} (l : List (String × α)) (k : String) (v : α) :
    alGet (alSet l k v) k = some v := by
  induction l with
  | nil => simp [alSet, alGet]
  | cons p rest ih =>
    obtain ⟨k1, v1⟩ := p
    by_cases h : k1 = k
    · simp [alSet, alGet, h]
    · simp [alSet, alGet, h, ih]

theorem alGet_alSet_ne {α : Type} (l : List (String × α)) (k k2 : String) (v : α)
    (h : k ≠ k2) : alGet (alSet l k v) k2 = alGet l k2 := by
  induction l with
  | nil => simp [alSet, alGet, h]
  | cons p rest ih =>
    obtain ⟨k1, v1⟩ := p
    by_cases h1 : k1 = k
    · subst h1
      simp [alSet, alGet, h]
    · by_cases h2 : k1 = k2
      · subst h2
        simp [alSet, alGet, h1]
      · simp [alSet, alGet, h1, h2, ih]

theorem alGet_eq_none_of_not_mem {α : Type} (l : List (String × α)) (k : String)
    (h : k ∉ keys l) : alGet l k = none := by
  induction l with
  | nil => simp [alGet]
  | cons p rest ih =>
    obtain ⟨k1, v1⟩ := p
    simp only [keys, List.map_cons, List.mem_cons] at h
    push_neg at h
    have h1 : k1 ≠ k := fun he => h.1 he.symm
    simpa [alGet, h1] using ih h.2

theorem mem_keys_alSet {α : Type} (l : List (String × α)) (k key : String) (v : α) :
    key ∈ keys (alSet l k v) ↔ key = k ∨ key ∈ keys l := by
  induction l with
  | nil => simp [alSet, keys]
  | cons p rest ih =>
    obtain ⟨k1, v1⟩ := p
    by_cases h1 : k1 = k
    · subst h1
      simp [alSet, keys]
    · simp [alSet, h1, keys] at *
      tauto

theorem nodupKeys_alSet {α : Type} (l : List (String × α)) (k : String) (v : α)
    (h : NodupKeys l) : NodupKeys (alSet l k v) := by
  induction l with
  | nil => simp [alSet, NodupKeys, keys]
  | cons p rest ih =>
    obtain ⟨k1, v1⟩ := p
    simp only [NodupKeys, keys, List.map_cons, List.nodup_cons] at h
    by_cases h1 : k1 = k
    · subst h1
      have he : alSet ((k1, v1) :: rest) k1 v = (k1, v) :: rest := by
        simp [alSet]
      rw [he]
      simp only [NodupKeys, keys, List.map_cons, List.nodup_cons]
      exact h
    · have h2 := ih h.2
      simp only [alSet, if_neg h1, NodupKeys, keys, List.map_cons, List.nodup_cons]
      refine ⟨fun hmem => ?_, h2⟩
      rcases (mem_keys_alSet rest k k1 v).mp hmem with he | hm
      · exact h1 he
      · exact h.1 hm

theorem alGet_mergeDoc_of_not_mem (old new : Doc) (k : String)
    (h : k ∉ keys new) : alGet (mergeDoc old new) k = alGet old k := by
  induction new generalizing old with
  | nil => rfl
  | cons p rest ih =>
    obtain ⟨k1, v1⟩ := p
    simp only [keys, List.map_cons, List.mem_cons] at h
    push_neg at h
    rw [mergeDoc, ih _ (by simpa [keys] using h.2)]
    exact alGet_alSet_ne old k1 k v1 (fun he => h.1 he.symm)

theorem alGet_mergeDoc_of_mem (old new : Doc) (k : String) (v : Value)
    (hnd : NodupKeys new) (h : alGet new k = some v) :
    alGet (mergeDoc old new) k = some v := by
  induction new generalizing old with
  | nil => simp [alGet] at h
  | cons p rest ih =>
    obtain ⟨k1, v1⟩ := p
    simp only [NodupKeys, keys, List.map_cons, List.nodup_cons] at hnd
    rw [mergeDoc]
    by_cases h1 : k1 = k
    · subst h1
      simp [alGet] at h
      rw [alGet_mergeDoc_of_not_mem _ _ _ hnd.1, alGet_alSet_self, h]
    · simp only [alGet, if_neg h1] at h
      exact ih _ hnd.2 h

/-! ## Behavior of one connected save -/

theorem save_strategy_stored (c : FirebaseClient) (st : Store) (sid : String)
    (d : Doc) (hc : c.is_connected = true) :
    (save_strategy c st false sid d).2.2.strategies =
      alSet st.strategies sid
        (mergeDoc ((alGet st.strategies sid).getD [])
          (alSet (alSet d "updated_at" Value.serverTimestamp) "version"
            ((alGet (alSet d "updated_at" Value.serverTimestamp) "version").getD
              (Value.int 1)))) := by
  simp [save_strategy, hc]

/-! ## Claims -/

/-- C1: on a connected gateway, a first save of a payload without a version
field into a store holding no document for that id stores version 1, and a
second save of another version-less payload leaves the stored version at 1,
with no auto-increment. -/
theorem C1_version_defaults_to_one (c : FirebaseClient) (st : Store)
    (sid : String) (d1 d2 : Doc) (hc : c.is_connected = true)
    (hn1 : NodupKeys d1) (hn2 : NodupKeys d2)
    (hv1 : alGet d1 "version" = none) (hv2 : alGet d2 "version" = none)
    (h0 : alGet st.strategies sid = none) :
    alGet ((alGet (save_strategy c st false sid d1).2.2.strategies sid).getD [])
      "version" = some (Value.int 1) ∧
    alGet ((alGet (save_strategy c (save_strategy c st false sid d1).2.2 false
      sid d2).2.2.strategies sid).getD []) "version" = some (Value.int 1) := by
  have hne : ("updated_at" : String) ≠ "version" := by decide
  have hsd1v : alGet (alSet d1 "updated_at" Value.serverTimestamp) "version" = none := by
    rw [alGet_alSet_ne _ _ _ _ hne, hv1]
  have hsd2v : alGet (alSet d2 "updated_at" Value.serverTimestamp) "version" = none := by
    rw [alGet_alSet_ne _ _ _ _ hne, hv2]
  have hnd1 : NodupKeys (alSet (alSet d1 "updated_at" Value.serverTimestamp) "version"
      ((alGet (alSet d1 "updated_at" Value.serverTimestamp) "version").getD (Value.int 1))) :=
    nodupKeys_alSet _ _ _ (nodupKeys_alSet _ _ _ hn1)
  have hnd2 : NodupKeys (alSet (alSet d2 "updated_at" Value.serverTimestamp) "version"
      ((alGet (alSet d2 "updated_at" Value.serverTimestamp) "version").getD (Value.int 1))) :=
    nodupKeys_alSet _ _ _ (nodupKeys_alSet _ _ _ hn2)
  have hg1 : alGet (alSet (alSet d1 "updated_at" Value.serverTimestamp) "version"
      ((alGet (alSet d1 "updated_at" Value.serverTimestamp) "version").getD (Value.int 1)))
      "version" = some (Value.int 1) := by
    rw [alGet_alSet_self, hsd1v]
    rfl
  have hg2 : alGet (alSet (alSet d2 "updated_at" Value.serverTimestamp) "version"
      ((alGet (alSet d2 "updated_at" Value.serverTimestamp) "version").getD (Value.int 1)))
      "version" = some (Value.int 1) := by
    rw [alGet_alSet_self, hsd2v]
    rfl
  constructor
  · rw [save_strategy_stored c st sid d1 hc, alGet_alSet_self, h0]
    exact alGet_mergeDoc_of_mem _ _ _ _ hnd1 hg1
  · rw [save_strategy_stored c (save_strategy c st false sid d1).2.2 sid d2 hc,
      alGet_alSet_self]
    exact alGet_mergeDoc_of_mem _ _ _ _ hnd2 hg2

/-- C1 witness: concrete first and second save without a version field. -/
theorem C1_witness :
    alGet ((alGet (save_strategy (FirebaseClient.mk true true) (Store.mk [] [] [])
      false "s1" [("a", Value.int 1)]).2.2.strategies "s1").getD [])
      "version" = some (Value.int 1) ∧
    alGet ((alGet (save_strategy (FirebaseClient.mk true true)
      (save_strategy (FirebaseClient.mk true true) (Store.mk [] [] []) false "s1"
        [("a", Value.int 1)]).2.2 false "s1"
      [("b", Value.int 2)]).2.2.strategies "s1").getD [])
      "version" = some (Value.int 1) :=
  C1_version_defaults_to_one (FirebaseClient.mk true true) (Store.mk [] [] [])
    "s1" [("a", Value.int 1)] [("b", Value.int 2)] rfl (by decide) (by decide)
    (by decide) (by decide) (by decide)

/-- C2: get_strategy yields the same absent result, never an error, both when
the gateway is disconnected and when no document with the id exists. -/
theorem C2_get_strategy_absent (c : FirebaseClient) (st : Store) (sid : String)
    (h : c.is_connected = false ∨ alGet st.strategies sid = none) :
    get_strategy c st false sid = none := by
  rcases h with h | h
  · simp [get_strategy, h]
  · by_cases hc : c.is_connected <;> simp [get_strategy, hc, h]

/-- C2 witness: a disconnected gateway on a never-saved id. -/
theorem C2_witness :
    get_strategy (FirebaseClient.mk false false) (Store.mk [] [] []) false "s1"
      = none :=
  C2_get_strategy_absent (FirebaseClient.mk false false) (Store.mk [] [] [])
    "s1" (Or.inl rfl)

/-- C3: on disconnection or any remote-call failure, save_strategy and
log_trade return false and get_strategy returns an absent result; no operation
propagates an exception. -/
theorem C3_operations_fail_soft (c : FirebaseClient) (st : Store) (sid : String)
    (d td : Doc) (remoteFailure : Bool)
    (h : c.is_connected = false ∨ remoteFailure = true) :
    (save_strategy c st remoteFailure sid d).1 = false ∧
    (log_trade c st remoteFailure td).1 = false ∧
    get_strategy c st remoteFailure sid = none := by
  rcases h with h | h
  · simp [save_strategy, log_trade, get_strategy, h]
  · subst h
    by_cases hc : c.is_connected <;>
      simp [save_strategy, log_trade, get_strategy, hc]

/-- C3 witness: a connected gateway whose remote calls fail. -/
theorem C3_witness :
    (save_strategy (FirebaseClient.mk true true) (Store.mk [] [] []) true "s1"
      []).1 = false ∧
    (log_trade (FirebaseClient.mk true true) (Store.mk [] [] []) true []).1
      = false ∧
    get_strategy (FirebaseClient.mk true true) (Store.mk [] [] []) true "s1"
      = none :=
  C3_operations_fail_soft (FirebaseClient.mk true true) (Store.mk [] [] [])
    "s1" [] [] true (Or.inr rfl)

/-- C4: a failed connection attempt during construction propagates its error
to the caller, and every successfully constructed gateway is connected; there
is no disconnected-but-usable instance and no second attempt. -/
theorem C4_construction_failure_propagates (appsNonEmpty : Bool)
    (certInit clientInit : Except String Unit) (e : String) (c : FirebaseClient)
    (hok : initialize_firebase appsNonEmpty certInit clientInit = Except.ok c) :
    c.is_connected = true ∧
    initialize_firebase false (Except.error e) clientInit = Except.error e := by
  constructor
  · cases appsNonEmpty <;> rcases certInit with e1 | u1 <;>
      rcases clientInit with e2 | u2 <;>
      simp [initialize_firebase] at hok <;>
      simp [← hok, FirebaseClient.is_connected]
  · rfl

/-- C4 witness: a successful construction and a failing credentials load. -/
theorem C4_witness :
    (FirebaseClient.mk true true).is_connected = true ∧
    initialize_firebase false (Except.error "bad credentials path")
      (Except.ok ()) = Except.error "bad credentials path" :=
  C4_construction_failure_propagates true (Except.ok ()) (Except.ok ())
    "bad credentials path" (FirebaseClient.mk true true) rfl

/-- C5: two connected saves on the same id with disjoint payloads store the
union of the field sets: fields of the later payload overwrite, fields only in
the earlier payload are preserved. -/
theorem C5_merge_union (c : FirebaseClient) (st : Store) (sid : String)
    (d1 d2 : Doc) (k1 k2 : String) (v1 v2 : Value)
    (hc : c.is_connected = true)
    (hn1 : NodupKeys d1) (hn2 : NodupKeys d2)
    (hdisj : ∀ a ∈ keys d1, a ∉ keys d2)
    (hk1 : alGet d1 k1 = some v1) (hk1u : k1 ≠ "updated_at")
    (hk1v : k1 ≠ "version")
    (hk2 : alGet d2 k2 = some v2) (hk2u : k2 ≠ "updated_at") :
    alGet ((alGet (save_strategy c (save_strategy c st false sid d1).2.2 false
      sid d2).2.2.strategies sid).getD []) k1 = some v1 ∧
    alGet ((alGet (save_strategy c (save_strategy c st false sid d1).2.2 false
      sid d2).2.2.strategies sid).getD []) k2 = some v2 := by
  have hk1mem : k1 ∈ keys d1 := by
    by_contra hcon
    rw [alGet_eq_none_of_not_mem _ _ hcon] at hk1
    exact Option.noConfusion hk1
  have hk1n : k1 ∉ keys d2 := hdisj k1 hk1mem
  have hnd1 : NodupKeys (alSet (alSet d1 "updated_at" Value.serverTimestamp) "version"
      ((alGet (alSet d1 "updated_at" Value.serverTimestamp) "version").getD (Value.int 1))) :=
    nodupKeys_alSet _ _ _ (nodupKeys_alSet _ _ _ hn1)
  have hnd2 : NodupKeys (alSet (alSet d2 "updated_at" Value.serverTimestamp) "version"
      ((alGet (alSet d2 "updated_at" Value.serverTimestamp) "version").getD (Value.int 1))) :=
    nodupKeys_alSet _ _ _ (nodupKeys_alSet _ _ _ hn2)
  have hsd1k1 : alGet (alSet (alSet d1 "updated_at" Value.serverTimestamp) "version"
      ((alGet (alSet d1 "updated_at" Value.serverTimestamp) "version").getD (Value.int 1)))
      k1 = some v1 := by
    rw [alGet_alSet_ne _ _ _ _ (Ne.symm hk1v), alGet_alSet_ne _ _ _ _ (Ne.symm hk1u), hk1]
  have hsd2k2 : alGet (alSet (alSet d2 "updated_at" Value.serverTimestamp) "version"
      ((alGet (alSet d2 "updated_at" Value.serverTimestamp) "version").getD (Value.int 1)))
      k2 = some v2 := by
    by_cases hk2v : k2 = "version"
    · subst hk2v
      rw [alGet_alSet_self, alGet_alSet_ne _ _ _ _ (Ne.symm hk2u), hk2]
      rfl
    · rw [alGet_alSet_ne _ _ _ _ (Ne.symm hk2v), alGet_alSet_ne _ _ _ _ (Ne.symm hk2u), hk2]
  have hk1sd2 : k1 ∉ keys (alSet (alSet d2 "updated_at" Value.serverTimestamp) "version"
      ((alGet (alSet d2 "updated_at" Value.serverTimestamp) "version").getD (Value.int 1))) := by
    intro hmem
    rcases (mem_keys_alSet _ _ _ _).mp hmem with he | hmem2
    · exact hk1v he
    · rcases (mem_keys_alSet _ _ _ _).mp hmem2 with he | hmem3
      · exact hk1u he
      · exact hk1n hmem3
  rw [save_strategy_stored c (save_strategy c st false sid d1).2.2 sid d2 hc,
    alGet_alSet_self, save_strategy_stored c st sid d1 hc, alGet_alSet_self]
  constructor
  · rw [Option.getD_some, alGet_mergeDoc_of_not_mem _ _ _ hk1sd2]
    exact alGet_mergeDoc_of_mem _ _ _ _ hnd1 hsd1k1
  · rw [Option.getD_some]
    exact alGet_mergeDoc_of_mem _ _ _ _ hnd2 hsd2k2

/-- C5 witness: save of a payload with field a then of a payload with field b
on the same id; both fields are present afterwards. -/
theorem C5_witness :
    alGet ((alGet (save_strategy (FirebaseClient.mk true true)
      (save_strategy (FirebaseClient.mk true true) (Store.mk [] [] []) false "s1"
        [("a", Value.int 1)]).2.2 false "s1"
      [("b", Value.int 2)]).2.2.strategies "s1").getD []) "a"
      = some (Value.int 1) ∧
    alGet ((alGet (save_strategy (FirebaseClient.mk true true)
      (save_strategy (FirebaseClient.mk true true) (Store.mk [] [] []) false "s1"
        [("a", Value.int 1)]).2.2 false "s1"
      [("b", Value.int 2)]).2.2.strategies "s1").getD []) "b"
      = some (Value.int 2) :=
  C5_merge_union (FirebaseClient.mk true true) (Store.mk [] [] []) "s1"
    [("a", Value.int 1)] [("b", Value.int 2)] "a" "b" (Value.int 1)
    (Value.int 2) rfl (by decide) (by decide) (by decide) (by decide)
    (by decide) (by decide) (by decide) (by decide)

/-- C6 counterexample: a connected log_trade whose payload contains the key
strategy_id with the empty string as value appends the trade and returns true
but invokes the performance hook zero times, not exactly once. -/
theorem C6_counterexample :
    (alGet [("strategy_id", Value.str "")] "strategy_id").isSome = true ∧
    (log_trade (FirebaseClient.mk true true) (Store.mk [] [] []) false
      [("strategy_id", Value.str "")]).1 = true ∧
    (log_trade (FirebaseClient.mk true true) (Store.mk [] [] []) false
      [("strategy_id", Value.str "")]).2.2.trades.length = 1 ∧
    (log_trade (FirebaseClient.mk true true) (Store.mk [] [] []) false
      [("strategy_id", Value.str "")]).2.2.perfUpdates = [] := by
  decide

/-- C6 (amended): a connected log_trade always appends the trade record and
returns true; the performance hook is invoked exactly once when the payload
holds a truthy strategy_id and zero times when the key is absent or its value
is falsy. -/
theorem C6_amended_hook_on_truthy_id (c : FirebaseClient) (st : Store)
    (td : Doc) (hc : c.is_connected = true) :
    (log_trade c st false td).1 = true ∧
    (log_trade c st false td).2.2.trades.length = st.trades.length + 1 ∧
    (log_trade c st false td).2.2.perfUpdates.length =
      st.perfUpdates.length +
        (match alGet td "strategy_id" with
         | some v => if pyTruthy v then 1 else 0
         | none => 0) := by
  have hsid : alGet (alSet (alSet td "logged_at" Value.serverTimestamp)
      "ecosystem_version" (Value.str "aete_v1")) "strategy_id"
      = alGet td "strategy_id" := by
    rw [alGet_alSet_ne _ _ _ _ (by decide), alGet_alSet_ne _ _ _ _ (by decide)]
  rcases h : alGet td "strategy_id" with _ | v
  · rw [h] at hsid
    simp [log_trade, hc, hsid]
  · rw [h] at hsid
    by_cases hp : pyTruthy v = true
    · simp [log_trade, hc, hsid, hp, update_strategy_performance]
    · simp [log_trade, hc, hsid, hp, update_strategy_performance]

/-- C6 witness: a connected log_trade with a non-empty strategy_id. -/
theorem C6_witness :
    (log_trade (FirebaseClient.mk true true) (Store.mk [] [] []) false
      [("strategy_id", Value.str "s1")]).1 = true ∧
    (log_trade (FirebaseClient.mk true true) (Store.mk [] [] []) false
      [("strategy_id", Value.str "s1")]).2.2.trades.length
      = (Store.mk [] [] []).trades.length + 1 ∧
    (log_trade (FirebaseClient.mk true true) (Store.mk [] [] []) false
      [("strategy_id", Value.str "s1")]).2.2.perfUpdates.length =
      (Store.mk [] [] []).perfUpdates.length +
        (match alGet [("strategy_id", Value.str "s1")] "strategy_id" with
         | some v => if pyTruthy v then 1 else 0
         | none => 0) :=
  C6_amended_hook_on_truthy_id (FirebaseClient.mk true true)
    (Store.mk [] [] []) [("strategy_id", Value.str "s1")] rfl

/-- C7: the sandbox flag parses true exactly for the case-insensitive
spellings of the word true, false for every other string, and defaults to
true when the variable is unset. -/
theorem C7_sandbox_parse (s : String) :
    (parse_exchange_sandbox (some s) = true ↔
      s.data.map Char.toLower = ['t', 'r', 'u', 'e']) ∧
    parse_exchange_sandbox none = true := by
  refine ⟨?_, rfl⟩
  have hunfold : parse_exchange_sandbox (some s) = (pyLower s == "true") := rfl
  rw [hunfold, beq_iff_eq]
  constructor
  · intro h
    have h2 := congrArg String.data h
    simpa [pyLower] using h2
  · intro h
    apply String.ext
    simpa [pyLower] using h

/-- C8: validation of a configuration with an empty exchange name reports the
Exchange config check as failed and returns false overall, while a live-mode
exchange configuration with empty api keys still passes its check. -/
theorem C8_validate_checks (cfg : AETEConfig) (credentialsFileExists : Bool)
    (ec : ExchangeConfig)
    (h1 : cfg.exchange.name = "") (h2 : ec.name ≠ "")
    (_h3 : ec.sandbox = false) (_h4 : ec.api_key = "")
    (_h5 : ec.api_secret = "") :
    (cfg.validate credentialsFileExists).1 = false ∧
    "Exchange config" ∈ (cfg.validate credentialsFileExists).2 ∧
    ec.validate = true := by
  have hev : cfg.exchange.validate = false := by
    simp [ExchangeConfig.validate, h1]
  have hev2 : ec.validate = true := by
    simp [ExchangeConfig.validate, h2]
  refine ⟨?_, ?_, hev2⟩ <;>
    cases credentialsFileExists <;>
      simp [AETEConfig.validate, hev]

/-- C8 witness: an empty-name configuration and a live-mode keyless exchange
configuration. -/
theorem C8_witness :
    ((AETEConfig.mk "INFO" "./firebase_credentials.json"
      (ExchangeConfig.mk "" "" "" true)).validate true).1 = false ∧
    "Exchange config" ∈ ((AETEConfig.mk "INFO" "./firebase_credentials.json"
      (ExchangeConfig.mk "" "" "" true)).validate true).2 ∧
    (ExchangeConfig.mk "binance" "" "" false).validate = true :=
  C8_validate_checks (AETEConfig.mk "INFO" "./firebase_credentials.json"
    (ExchangeConfig.mk "" "" "" true)) true
    (ExchangeConfig.mk "binance" "" "" false) rfl (by decide) rfl rfl rfl

/-- C9 counterexample: a call on a disconnected gateway returns before the
mutation lines, so the payload of the caller still lacks the keys the claim
says every call adds. -/
theorem C9_counterexample :
    alGet (save_strategy (FirebaseClient.mk false false) (Store.mk [] [] [])
      false "s1" []).2.1 "updated_at" = none ∧
    alGet (log_trade (FirebaseClient.mk false false) (Store.mk [] [] [])
      false []).2.1 "logged_at" = none := by
  decide

/-- C9 (amended): on a connected gateway, even when the remote write then
fails, save_strategy leaves the payload of the caller containing updated_at
and version, and log_trade leaves it containing logged_at and
ecosystem_version; a disconnected gateway leaves the payload untouched. -/
theorem C9_amended_inplace_mutation (c : FirebaseClient) (st : Store)
    (sid : String) (d td : Doc) (remoteFailure : Bool)
    (hc : c.is_connected = true) :
    (alGet (save_strategy c st remoteFailure sid d).2.1 "updated_at").isSome
      = true ∧
    (alGet (save_strategy c st remoteFailure sid d).2.1 "version").isSome
      = true ∧
    (alGet (log_trade c st remoteFailure td).2.1 "logged_at").isSome = true ∧
    (alGet (log_trade c st remoteFailure td).2.1 "ecosystem_version").isSome
      = true := by
  have hsave : (save_strategy c st remoteFailure sid d).2.1 =
      alSet (alSet d "updated_at" Value.serverTimestamp) "version"
        ((alGet (alSet d "updated_at" Value.serverTimestamp) "version").getD
          (Value.int 1)) := by
    cases remoteFailure <;> simp [save_strategy, hc]
  have hlog : (log_trade c st remoteFailure td).2.1 =
      alSet (alSet td "logged_at" Value.serverTimestamp) "ecosystem_version"
        (Value.str "aete_v1") := by
    cases remoteFailure <;> simp [log_trade, hc]
  refine ⟨?_, ?_, ?_, ?_⟩
  · rw [hsave, alGet_alSet_ne _ _ _ _ (by decide), alGet_alSet_self]
    rfl
  · rw [hsave, alGet_alSet_self]
    rfl
  · rw [hlog, alGet_alSet_ne _ _ _ _ (by decide), alGet_alSet_self]
    rfl
  · rw [hlog, alGet_alSet_self]
    rfl

/-- C9 witness: a connected gateway whose remote write fails still mutates
both payloads. -/
theorem C9_witness :
    (alGet (save_strategy (FirebaseClient.mk true true) (Store.mk [] [] [])
      true "s1" []).2.1 "updated_at").isSome = true ∧
    (alGet (save_strategy (FirebaseClient.mk true true) (Store.mk [] [] [])
      true "s1" []).2.1 "version").isSome = true ∧
    (alGet (log_trade (FirebaseClient.mk true true) (Store.mk [] [] [])
      true []).2.1 "logged_at").isSome = true ∧
    (alGet (log_trade (FirebaseClient.mk true true) (Store.mk [] [] [])
      true []).2.1 "ecosystem_version").isSome = true :=
  C9_amended_inplace_mutation (FirebaseClient.mk true true) (Store.mk [] [] [])
    "s1" [] [] true rfl

/-- C10: a connected log_trade whose payload holds strategy_id with a falsy
value still appends the trade record and returns true but leaves the
performance hook uninvoked. -/
theorem C10_falsy_strategy_id_skips_hook (c : FirebaseClient) (st : Store)
    (td : Doc) (v : Value) (hc : c.is_connected = true)
    (hv : alGet td "strategy_id" = some v) (hf : pyTruthy v = false) :
    (log_trade c st false td).1 = true ∧
    (log_trade c st false td).2.2.trades.length = st.trades.length + 1 ∧
    (log_trade c st false td).2.2.perfUpdates = st.perfUpdates := by
  have hsid : alGet (alSet (alSet td "logged_at" Value.serverTimestamp)
      "ecosystem_version" (Value.str "aete_v1")) "strategy_id" = some v := by
    rw [alGet_alSet_ne _ _ _ _ (by decide), alGet_alSet_ne _ _ _ _ (by decide),
      hv]
  simp [log_trade, hc, hsid, hf]

/-- C10 witness: strategy_id present with the empty string as value. -/
theorem C10_witness :
    (log_trade (FirebaseClient.mk true true) (Store.mk [] [] []) false
      [("strategy_id", Value.str "")]).1 = true ∧
    (log_trade (FirebaseClient.mk true true) (Store.mk [] [] []) false
      [("strategy_id", Value.str "")]).2.2.trades.length
      = (Store.mk [] [] []).trades.length + 1 ∧
    (log_trade (FirebaseClient.mk true true) (Store.mk [] [] []) false
      [("strategy_id", Value.str "")]).2.2.perfUpdates
      = (Store.mk [] [] []).perfUpdates :=
  C10_falsy_strategy_id_skips_hook (FirebaseClient.mk true true)
    (Store.mk [] [] []) [("strategy_id", Value.str "")] (Value.str "") rfl
    (by decide) (by decide)

end AETE
